import Mathlib

/-!
Verification development for the nemostore dashboard core
(`src/dashboard.py`): the record-normalization pipeline
(`get_processed_data`, `extract_from_json`, `get_age`), the sidebar
filter engine (`draw_sidebar`, lines 141-152), and the text search of
`page_explorer` (lines 212-216).

Numeric dataframe columns are modelled as rational numbers (exact
arithmetic standing in for Python floats); a dataframe is a list of
rows; pandas column assignments and `apply` are row-wise maps; a
boolean-mask selection is `List.filter` (order-preserving).

`json.loads` and Python's `int()` are standard-library collaborators,
not repository code; they are modelled by an abstract parse parameter
and by an explicit fragment of `int()`'s documented grammar below.
-/

namespace Nemostore

/-- One row of the `stores` table, as read by
`pd.read_sql_query("SELECT * FROM stores", conn)`: the raw numeric and
categorical columns plus the embedded `raw_json` payload string. -/
structure RawListing where
  deposit : ℚ
  monthlyRent : ℚ
  premium : ℚ
  size : ℚ
  floor : ℤ
  businessLargeCodeName : String
  businessMiddleCodeName : String
  nearSubwayStation : String
  title : String
  id : ℤ
  listing_number : ℤ
  raw_json : String
deriving Repr, DecidableEq

/-- The shape `extract_from_json` reads out of a successfully parsed
payload: `data.get('areaPrice', 0)` etc., with `none` standing for an
absent key (so `Option.getD` models `dict.get` with a default). -/
structure JsonDoc where
  areaPrice : Option ℚ
  maintenanceFee : Option ℚ
  completionConfirmedDateUtc : Option String
  groundFloor : Option ℚ
deriving Repr, DecidableEq

/-- The auxiliary columns produced by `extract_from_json`
(dashboard.py lines 39-49). -/
structure Extraction where
  area_price_raw : ℚ
  maint_fee_raw : ℚ
  approval_date : String
  ground_floor_raw : ℚ
deriving Repr, DecidableEq

/-- `extract_from_json` (dashboard.py lines 39-49).  `json.loads` is
external library code, modelled by the `parse` parameter: `none` is any
parse failure (malformed text or a document of the wrong shape, both
caught by the bare `except`); `some doc` is a successful parse.  On
success the four keys are read with defaults `0`, `0`, `"N/A"`, `0`;
on failure the all-default tuple is returned. -/
def extract_from_json (parse : String → Option JsonDoc) (row : RawListing) :
    Extraction :=
  match parse row.raw_json with
  | some data =>
    { area_price_raw := data.areaPrice.getD 0
      maint_fee_raw := data.maintenanceFee.getD 0
      approval_date := data.completionConfirmedDateUtc.getD "N/A"
      ground_floor_raw := data.groundFloor.getD 0 }
  | none =>
    { area_price_raw := 0, maint_fee_raw := 0
      approval_date := "N/A", ground_floor_raw := 0 }

/-- Python string slicing `s[:n]`: the first `n` code points (all of
`s` when it is shorter). -/
def pySlice (s : String) (n : ℕ) : String :=
  ⟨s.toList.take n⟩

/-- Modelled from the spec: Python's built-in `int(str)` (standard
library, not repository code), on the fragment the dashboard feeds it:
leading/trailing whitespace is stripped, an optional single `+`/`-`
sign is allowed, and the rest must be one or more decimal digits
(underscore digit-grouping is outside the modelled fragment).
`none` is a `ValueError`. -/
def pyParseInt (s : String) : Option ℤ :=
  let chars :=
    ((s.toList.dropWhile Char.isWhitespace).reverse.dropWhile
      Char.isWhitespace).reverse
  let digitsVal : List Char → ℤ := fun l =>
    l.foldl (fun acc c => acc * 10 + (c.toNat - '0'.toNat : ℤ)) 0
  match chars with
  | [] => none
  | '+' :: rest =>
    if rest ≠ [] ∧ rest.all Char.isDigit then some (digitsVal rest) else none
  | '-' :: rest =>
    if rest ≠ [] ∧ rest.all Char.isDigit then some (-(digitsVal rest)) else none
  | l =>
    if l.all Char.isDigit then some (digitsVal l) else none

/-- `get_age` (dashboard.py lines 74-80): `'N/A'` or the empty string
(Python falsy) give age `0`; otherwise the first four characters
(`date_str[:4]`) are passed to `int()`; on success the age is
`CURRENT_YEAR - year`, and the bare `except` turns any parse failure
into `0`.  `current_year` is the wall-clock year sampled once per
invocation, threaded as a parameter. -/
def get_age (current_year : ℤ) (date_str : String) : ℤ :=
  if date_str = "N/A" ∨ date_str = "" then 0
  else
    match pyParseInt (pySlice date_str 4) with
    | some year => current_year - year
    | none => 0

/-- A `RawListing` together with every derived column added by
`get_processed_data` (dashboard.py lines 51-84). -/
structure NormalizedListing extends RawListing where
  area_price_raw : ℚ
  maint_fee_raw : ℚ
  approval_date : String
  ground_floor_raw : ℚ
  deposit_won : ℚ
  monthly_rent_won : ℚ
  premium_won : ℚ
  maintenance_fee_won : ℚ
  area_price_won_per_m2 : ℚ
  size_py : ℚ
  total_initial_cost : ℚ
  monthly_total_cost : ℚ
  rent_per_m2 : ℚ
  rent_per_py : ℚ
  premium_ratio : ℚ
  building_age : ℤ
  district : String
deriving Repr, DecidableEq

/-- The per-row body of `get_processed_data` (dashboard.py lines
51-84): the payload extraction is concatenated onto the row, then the
unit conversions, the derived costs, the three guarded ratios, the
building age and the placeholder district are computed, in source
order.  Every pandas column assignment there is element-wise, so the
whole pipeline is this function mapped over the rows. -/
def normalize_row (parse : String → Option JsonDoc) (current_year : ℤ)
    (r : RawListing) : NormalizedListing :=
  let e := extract_from_json parse r
  let deposit_won := r.deposit * 10000
  let monthly_rent_won := r.monthlyRent * 10000
  let premium_won := r.premium * 10000
  let maintenance_fee_won := e.maint_fee_raw * 10000
  let area_price_won_per_m2 := e.area_price_raw * 10000
  let size_py := r.size / 3.3058
  { toRawListing := r
    area_price_raw := e.area_price_raw
    maint_fee_raw := e.maint_fee_raw
    approval_date := e.approval_date
    ground_floor_raw := e.ground_floor_raw
    deposit_won := deposit_won
    monthly_rent_won := monthly_rent_won
    premium_won := premium_won
    maintenance_fee_won := maintenance_fee_won
    area_price_won_per_m2 := area_price_won_per_m2
    size_py := size_py
    total_initial_cost := deposit_won + premium_won
    monthly_total_cost := monthly_rent_won + maintenance_fee_won
    rent_per_m2 := if r.size > 0 then monthly_rent_won / r.size else 0
    rent_per_py := if size_py > 0 then monthly_rent_won / size_py else 0
    premium_ratio := if deposit_won > 0 then premium_won / deposit_won else 0
    building_age := get_age current_year e.approval_date
    district := "강남구" }

/-- `get_processed_data` (dashboard.py lines 27-86) after the rows have
been read from the store: the `df.empty` short-circuit, then the
row-wise normalization.  The database connection and `os.path.exists`
guard are the input boundary and stay outside the model. -/
def get_processed_data (parse : String → Option JsonDoc) (current_year : ℤ)
    (rows : List RawListing) : List NormalizedListing :=
  if rows.isEmpty then [] else rows.map (normalize_row parse current_year)

/-- The predicate set collected by the sidebar widgets and consumed by
the filter block of `draw_sidebar` (dashboard.py lines 141-152): the
multiselect categories, the four slider ranges and the first-floor
checkbox.  The engine trusts the bounds as given. -/
structure PredicateSet where
  cats : List String
  dep_range : ℚ × ℚ
  rent_range : ℚ × ℚ
  prem_range : ℚ × ℚ
  size_range : ℚ × ℚ
  is_first_floor : Bool
deriving Repr, DecidableEq

/-- pandas `Series.between(lo, hi)`: inclusive on both ends. -/
def between (x lo hi : ℚ) : Bool :=
  decide (lo ≤ x) && decide (x ≤ hi)

/-- The filtering block of `draw_sidebar` (dashboard.py lines
141-152): one boolean-mask selection conjoining the `isin` category
test with the four `between` range tests, followed, when the
first-floor checkbox is set, by a second selection on `floor == 1`. -/
def draw_sidebar_filter (ps : PredicateSet) (df : List NormalizedListing) :
    List NormalizedListing :=
  let f_df := df.filter (fun r =>
    ps.cats.contains r.businessLargeCodeName &&
    between r.deposit ps.dep_range.1 ps.dep_range.2 &&
    between r.monthlyRent ps.rent_range.1 ps.rent_range.2 &&
    between r.premium ps.prem_range.1 ps.prem_range.2 &&
    between r.size ps.size_range.1 ps.size_range.2)
  if ps.is_first_floor then f_df.filter (fun r => r.floor == 1) else f_df

/-- Written from the claim's words, for comparison with
`draw_sidebar_filter`: a record passes when its
`businessLargeCodeName` is in the category set, each of `deposit`,
`monthlyRent`, `premium` and `size` lies in its inclusive `[min, max]`
range, and, when `first_floor_only` is set, `floor = 1`. -/
def satisfies_all_predicates (ps : PredicateSet) (r : NormalizedListing) :
    Bool :=
  decide (r.businessLargeCodeName ∈ ps.cats) &&
  decide (ps.dep_range.1 ≤ r.deposit ∧ r.deposit ≤ ps.dep_range.2) &&
  decide (ps.rent_range.1 ≤ r.monthlyRent ∧ r.monthlyRent ≤ ps.rent_range.2) &&
  decide (ps.prem_range.1 ≤ r.premium ∧ r.premium ≤ ps.prem_range.2) &&
  decide (ps.size_range.1 ≤ r.size ∧ r.size ≤ ps.size_range.2) &&
  (!ps.is_first_floor || decide (r.floor = 1))

/-- Character comparison under `re.IGNORECASE`, on the ASCII-letter
fragment: both sides are lowercased before comparing. -/
def charEqCI (a b : Char) : Bool :=
  decide (a.toLower = b.toLower)

/-- Plain character equality, for the case-sensitive searches. -/
def charEqCS (a b : Char) : Bool :=
  decide (a = b)

/-- The character comparison used when matching a pattern literal
against a text character: plain equality, or the `re.IGNORECASE`
comparison when `ci` is set. -/
def matchChar (ci : Bool) : Char → Char → Bool :=
  if ci then charEqCI else charEqCS

/-- Abstract syntax of the regular-expression fragment modelled for
pandas `str.contains` / `re.search`: the empty string, the empty
language, a literal character, the `.` wildcard, alternation,
concatenation, and Kleene star.  `+` and `?` are expressed through
`concat`/`star`/`alt` by the pattern compiler below. -/
inductive Regex where
  | emptyStr : Regex
  | fail : Regex
  | char : Char → Regex
  | anyChar : Regex
  | alt : Regex → Regex → Regex
  | concat : Regex → Regex → Regex
  | star : Regex → Regex
deriving Repr, DecidableEq

/-- Whether a regex matches the empty string. -/
def nullable : Regex → Bool
  | .emptyStr => true
  | .fail => false
  | .char _ => false
  | .anyChar => false
  | .alt r1 r2 => nullable r1 || nullable r2
  | .concat r1 r2 => nullable r1 && nullable r2
  | .star _ => true

/-- Concatenation with the evident simplifications (`∅` absorbs, `ε`
is a left unit), keeping derivatives small. -/
def concatS : Regex → Regex → Regex
  | .fail, _ => .fail
  | .emptyStr, r => r
  | r1, r2 => .concat r1 r2

/-- Alternation with `∅` as a unit. -/
def altS : Regex → Regex → Regex
  | .fail, r => r
  | r, .fail => r
  | r1, r2 => .alt r1 r2

/-- Brzozowski derivative of a regex by one text character: the
residual regex after that character.  A literal compares by
`matchChar ci`; the `.` wildcard matches any character except a
newline (`re.DOTALL` being off). -/
def rderiv (ci : Bool) : Regex → Char → Regex
  | .emptyStr, _ => .fail
  | .fail, _ => .fail
  | .char p, c => if matchChar ci p c then .emptyStr else .fail
  | .anyChar, c => if c ≠ '\n' then .emptyStr else .fail
  | .alt r1 r2, c => altS (rderiv ci r1 c) (rderiv ci r2 c)
  | .concat r1 r2, c =>
    if nullable r1 then
      altS (concatS (rderiv ci r1 c) r2) (rderiv ci r2 c)
    else concatS (rderiv ci r1 c) r2
  | .star r, c => concatS (rderiv ci r c) (.star r)

/-- The regex matches some prefix of `text` (possibly the empty one):
repeated derivatives, accepting as soon as the residual is nullable. -/
def matchesPre (ci : Bool) (r : Regex) : List Char → Bool
  | [] => nullable r
  | c :: cs => nullable r || matchesPre ci (rderiv ci r c) cs

/-- `re.search`: the regex matches a contiguous piece of `text`
starting at some position. -/
def reSearchRegex (ci : Bool) (r : Regex) : List Char → Bool
  | [] => matchesPre ci r []
  | c :: cs => matchesPre ci r (c :: cs) || reSearchRegex ci r cs

/-- The characters to which Python `re` gives special meaning. -/
def regexMetachars : List Char :=
  ['.', '^', '$', '*', '+', '?', '{', '}', '[', ']', '\\', '|', '(', ')']

/-- Compiler state: whether the previous pattern element can take a
quantifier (`atom`), already took one (`quantified`, where a following
`?` is a lazy marker), or took a lazy marker (`lazyMarked`). -/
inductive LastSt where
  | start : LastSt
  | atom : LastSt
  | quantified : LastSt
  | lazyMarked : LastSt
deriving Repr, DecidableEq

/-- Concatenation of the items of one alternative, stored in reverse
order of appearance. -/
def seqOfRev (items : List Regex) : Regex :=
  items.foldl (fun acc i => .concat i acc) .emptyStr

/-- Assembly of the completed alternatives (reversed) and the current
one into a single regex. -/
def assemble (done : List Regex) (items : List Regex) : Regex :=
  done.foldl (fun acc a => .alt a acc) (seqOfRev items)

/-- Modelled from the spec's external-interface reading of `re.compile`
(standard library, not repository code): one pass over the pattern.
Inside the modelled fragment are literal characters (including the
Python-literal `]` and `}`), `\` followed by a metacharacter (an
escaped literal), `.`, the quantifiers `*`, `+`, `?` on the preceding
atom with an optional lazy `?` marker (same matched set), and `|`.  A
quantifier with nothing to repeat, a quantifier on a quantifier, a
trailing or non-metacharacter escape, and a bare `)` are compile
errors in Python; those and the pattern constructs left out of the
fragment (`(` groups, `[` classes, `{` counted repetition, the `^`/`$`
anchors) all yield `none`, so nothing outside the fragment is ever
read as a literal. -/
def parseLoop : List Char → List Regex → List Regex → LastSt → Bool →
    Option Regex
  | [], done, items, _, esc => if esc then none else some (assemble done items)
  | c :: rest, done, items, last, esc =>
    if esc then
      if c ∈ regexMetachars then parseLoop rest done (.char c :: items) .atom false
      else none
    else if c = '|' then parseLoop rest (seqOfRev items :: done) [] .start false
    else if c = '*' then
      match last, items with
      | .atom, i :: is => parseLoop rest done (.star i :: is) .quantified false
      | _, _ => none
    else if c = '+' then
      match last, items with
      | .atom, i :: is =>
        parseLoop rest done (.concat i (.star i) :: is) .quantified false
      | _, _ => none
    else if c = '?' then
      match last, items with
      | .atom, i :: is =>
        parseLoop rest done (.alt i .emptyStr :: is) .quantified false
      | .quantified, _ => parseLoop rest done items .lazyMarked false
      | _, _ => none
    else if c = '.' then parseLoop rest done (.anyChar :: items) .atom false
    else if c = '\\' then parseLoop rest done items last true
    else if c = '(' ∨ c = ')' ∨ c = '[' ∨ c = '{' ∨ c = '^' ∨ c = '$' then none
    else parseLoop rest done (.char c :: items) .atom false

/-- Compile a pattern string on the modelled fragment: `none` stands
for `re.error` or a construct outside the fragment. -/
def parsePattern (pat : List Char) : Option Regex :=
  parseLoop pat [] [] .start false

/-- The regex denoting one fixed literal word: the image of a
metacharacter-free pattern under the compiler. -/
def litSeq : List Char → Regex
  | [] => .emptyStr
  | c :: cs => .concat (.char c) (litSeq cs)

/-- The search block of `page_explorer` (dashboard.py lines 212-216):
a non-empty (truthy) search string is compiled once and, via pandas
`str.contains` with its default `regex=True`, keeps the rows whose
`title` is matched case-insensitively (`case=False`) or whose
stringified `id` is matched case-sensitively by `re.search`; an empty
search shows `df.head(20)`.  `none` models the pattern raising
`re.error` (both `str.contains` calls compile the same pattern) or
falling outside the modelled fragment. -/
def page_explorer_search (search : String) (df : List NormalizedListing) :
    Option (List NormalizedListing) :=
  if search ≠ "" then
    match parsePattern search.toList with
    | some r =>
      some (df.filter (fun a =>
        reSearchRegex true r a.title.toList ||
        reSearchRegex false r (toString a.id).toList))
    | none => none
  else some (df.take 20)

/-- `pat` coincides with the start of `text`, character-wise under
`eqc` (no wildcard: every pattern character is literal). -/
def startsWithBy (eqc : Char → Char → Bool) : List Char → List Char → Bool
  | [], _ => true
  | _ :: _, [] => false
  | p :: ps, c :: cs => eqc p c && startsWithBy eqc ps cs

/-- `pat` occurs contiguously somewhere in `text`, character-wise
under `eqc`: substring containment. -/
def containsSubstrBy (eqc : Char → Char → Bool) (pat : List Char) :
    List Char → Bool
  | [] => startsWithBy eqc pat []
  | c :: cs => startsWithBy eqc pat (c :: cs) || containsSubstrBy eqc pat cs

/-- Written from the claim's words, for comparison with
`page_explorer_search`: keep exactly the records whose title contains
the search string as a case-insensitive substring, or whose
stringified id contains it as a (case-sensitive) substring. -/
def substring_search (search : String) (df : List NormalizedListing) :
    List NormalizedListing :=
  df.filter (fun r =>
    containsSubstrBy charEqCI search.toList r.title.toList ||
    containsSubstrBy charEqCS search.toList (toString r.id).toList)

/-- A concrete raw row (payload deliberately malformed), used to
instantiate the theorems below at concrete inputs. -/
def sampleRow : RawListing :=
  { deposit := 1000, monthlyRent := 70, premium := 500, size := 33, floor := 1
    businessLargeCodeName := "음식점업", businessMiddleCodeName := "카페"
    nearSubwayStation := "강남역", title := "ab", id := 5, listing_number := 77
    raw_json := "not valid json" }

/-- `sampleRow` with zero `size` and zero `deposit`, exercising the
division guards. -/
def sampleZeroRow : RawListing :=
  { sampleRow with size := 0, deposit := 0 }

/-- `sampleRow` normalized with an always-failing payload parse and
reference year 2025. -/
def sampleNorm : NormalizedListing :=
  normalize_row (fun _ => none) 2025 sampleRow

/-- A predicate set whose category multiselect is empty. -/
def emptyCatsPS : PredicateSet :=
  { cats := [], dep_range := (0, 5000), rent_range := (0, 300)
    prem_range := (0, 1000), size_range := (0, 100), is_first_floor := false }

/-- A predicate set with a degenerate (min > max) deposit range. -/
def degeneratePS : PredicateSet :=
  { cats := ["음식점업"], dep_range := (100, 50), rent_range := (0, 300)
    prem_range := (0, 1000), size_range := (0, 100), is_first_floor := false }

/-! ## Shared lemmas -/

/-- The `df.empty` short-circuit of `get_processed_data` is invisible:
the pipeline is exactly the row-wise normalization map. -/
lemma processed_eq_map (parse : String → Option JsonDoc) (y : ℤ)
    (rows : List RawListing) :
    get_processed_data parse y rows = rows.map (normalize_row parse y) := by
  cases rows <;> rfl

/-- A `between` test with a degenerate range rejects every value. -/
lemma between_degenerate {lo hi : ℚ} (x : ℚ) (h : hi < lo) :
    between x lo hi = false := by
  simp only [between, Bool.and_eq_false_iff, decide_eq_false_iff_not, not_le]
  by_cases hx : lo ≤ x
  · exact Or.inr (lt_of_lt_of_le h hx)
  · exact Or.inl (lt_of_not_le hx)

/-- The two-stage boolean-mask selection of `draw_sidebar` equals one
filter by the conjunction of all active predicates. -/
lemma draw_sidebar_filter_eq (ps : PredicateSet) (df : List NormalizedListing) :
    draw_sidebar_filter ps df = df.filter (satisfies_all_predicates ps) := by
  cases hff : ps.is_first_floor
  · simp only [draw_sidebar_filter, hff, Bool.false_eq_true, if_false]
    apply List.filter_congr
    intro a _
    rw [Bool.eq_iff_iff]
    simp [satisfies_all_predicates, between, hff]
  · simp only [draw_sidebar_filter, hff, if_true]
    rw [List.filter_filter]
    apply List.filter_congr
    intro a _
    rw [Bool.eq_iff_iff]
    simp [satisfies_all_predicates, between, hff]
    tauto

/-- The empty language matches no prefix. -/
lemma matchesPre_fail (ci : Bool) (text : List Char) :
    matchesPre ci .fail text = false := by
  induction text with
  | nil => rfl
  | cons c cs ih => simp [matchesPre, nullable, rderiv, ih]

/-- On the regex of a fixed literal word, prefix matching is the
character-wise literal prefix test. -/
lemma matchesPre_litSeq (ci : Bool) (l text : List Char) :
    matchesPre ci (litSeq l) text = startsWithBy (matchChar ci) l text := by
  induction l generalizing text with
  | nil => cases text <;> simp [litSeq, matchesPre, nullable, startsWithBy]
  | cons p ps ih =>
    cases text with
    | nil => simp [litSeq, matchesPre, nullable, startsWithBy]
    | cons c cs =>
      cases hm : matchChar ci p c <;>
        simp [litSeq, matchesPre, nullable, rderiv, concatS, startsWithBy, hm,
          ih, matchesPre_fail]

/-- On the regex of a fixed literal word, `re.search` is substring
containment. -/
lemma reSearch_litSeq (ci : Bool) (l text : List Char) :
    reSearchRegex ci (litSeq l) text = containsSubstrBy (matchChar ci) l text := by
  induction text with
  | nil => simp [reSearchRegex, containsSubstrBy, matchesPre_litSeq]
  | cons c cs ih =>
    simp [reSearchRegex, containsSubstrBy, matchesPre_litSeq, ih]

/-- The compiler consumes a metacharacter-free pattern as a plain
sequence of literal items, whatever state it starts in. -/
lemma parseLoop_literal (l : List Char) (h : ∀ c ∈ l, c ∉ regexMetachars)
    (done items : List Regex) (last : LastSt) :
    parseLoop l done items last false =
      some (assemble done ((l.map Regex.char).reverse ++ items)) := by
  induction l generalizing items last with
  | nil => simp [parseLoop]
  | cons c rest ih =>
    have hc := h c (List.mem_cons_self c rest)
    have hrest : ∀ a ∈ rest, a ∉ regexMetachars :=
      fun a ha => h a (List.mem_cons_of_mem c ha)
    simp only [regexMetachars, List.mem_cons, List.not_mem_nil, or_false,
      not_or] at hc
    obtain ⟨hdot, hhat, hdollar, hstar, hplus, hq, hlb, hrb, hlsq, hrsq,
      hbsl, hpipe, hlp, hrp⟩ := hc
    have hgrp : ¬(c = '(' ∨ c = ')' ∨ c = '[' ∨ c = '{' ∨ c = '^' ∨ c = '$') := by
      simp only [not_or]
      exact ⟨hlp, hrp, hlsq, hlb, hhat, hdollar⟩
    simp only [parseLoop, Bool.false_eq_true, if_false, if_neg hpipe,
      if_neg hstar, if_neg hplus, if_neg hq, if_neg hdot, if_neg hbsl,
      if_neg hgrp]
    rw [ih hrest]
    simp [List.append_assoc]

/-- A metacharacter-free pattern compiles to the regex of its literal
word. -/
lemma parse_literal (l : List Char) (h : ∀ c ∈ l, c ∉ regexMetachars) :
    parsePattern l = some (litSeq l) := by
  rw [parsePattern, parseLoop_literal l h [] [] .start]
  have hseq : ∀ m : List Char, seqOfRev ((m.map Regex.char).reverse) = litSeq m := by
    intro m
    rw [seqOfRev, List.foldl_reverse]
    induction m with
    | nil => rfl
    | cons c cs ih => simp only [List.map_cons, List.foldr_cons, litSeq, ih]
  simp [assemble, List.append_nil, hseq]

/-! ## Claims -/

/-- C1: the filter engine returns exactly the records satisfying the
conjunction of all active predicates (category membership, the four
inclusive ranges, and the optional `floor = 1` test), in input order;
an empty category set matches no record. -/
theorem claim_C1_filter_conjunction (ps : PredicateSet)
    (df : List NormalizedListing) :
    draw_sidebar_filter ps df = df.filter (satisfies_all_predicates ps) ∧
    List.Sublist (draw_sidebar_filter ps df) df ∧
    (ps.cats = [] → draw_sidebar_filter ps df = []) := by
  refine ⟨draw_sidebar_filter_eq ps df, ?_, ?_⟩
  · rw [draw_sidebar_filter_eq]
    exact List.filter_sublist df
  · intro hc
    rw [draw_sidebar_filter_eq, List.filter_eq_nil_iff]
    intro a _
    simp [satisfies_all_predicates, hc]

/-- Witness for C1: an empty category multiselect matches nothing. -/
theorem claim_C1_witness :
    draw_sidebar_filter emptyCatsPS [sampleNorm] = [] :=
  (claim_C1_filter_conjunction emptyCatsPS [sampleNorm]).2.2 rfl

/-- C4: a row whose payload fails to parse gets the all-default
auxiliary tuple, hence zero building age, maintenance fee and area
price, and every row of the batch is still normalized row-wise. -/
theorem claim_C4_malformed_payload (parse : String → Option JsonDoc) (y : ℤ)
    (rows : List RawListing) (i : ℕ) (r : RawListing)
    (hr : rows[i]? = some r) (hp : parse r.raw_json = none) :
    extract_from_json parse r =
      { area_price_raw := 0, maint_fee_raw := 0, approval_date := "N/A",
        ground_floor_raw := 0 } ∧
    (normalize_row parse y r).building_age = 0 ∧
    (normalize_row parse y r).maintenance_fee_won = 0 ∧
    (normalize_row parse y r).area_price_won_per_m2 = 0 ∧
    (get_processed_data parse y rows)[i]? = some (normalize_row parse y r) ∧
    (∀ j : ℕ, (get_processed_data parse y rows)[j]? =
      (rows[j]?).map (normalize_row parse y)) := by
  have he : extract_from_json parse r =
      { area_price_raw := 0, maint_fee_raw := 0, approval_date := "N/A",
        ground_floor_raw := 0 } := by
    simp [extract_from_json, hp]
  refine ⟨he, ?_, ?_, ?_, ?_, ?_⟩
  · simp [normalize_row, he, get_age]
  · simp [normalize_row, he]
  · simp [normalize_row, he]
  · rw [processed_eq_map, List.getElem?_map, hr]
    rfl
  · intro j
    rw [processed_eq_map, List.getElem?_map]

/-- Witness for C4 at a one-row batch whose payload never parses. -/
theorem claim_C4_witness :
    extract_from_json (fun _ => none) sampleRow =
      { area_price_raw := 0, maint_fee_raw := 0, approval_date := "N/A",
        ground_floor_raw := 0 } ∧
    (normalize_row (fun _ => none) 2025 sampleRow).building_age = 0 ∧
    (normalize_row (fun _ => none) 2025 sampleRow).maintenance_fee_won = 0 ∧
    (normalize_row (fun _ => none) 2025 sampleRow).area_price_won_per_m2 = 0 ∧
    (get_processed_data (fun _ => none) 2025 [sampleRow])[0]? =
      some (normalize_row (fun _ => none) 2025 sampleRow) ∧
    (∀ j : ℕ, (get_processed_data (fun _ => none) 2025 [sampleRow])[j]? =
      ([sampleRow][j]?).map (normalize_row (fun _ => none) 2025)) :=
  claim_C4_malformed_payload (fun _ => none) 2025 [sampleRow] 0 sampleRow rfl rfl

/-- C6: any range predicate with min > max makes the whole filter
result empty. -/
theorem claim_C6_degenerate_range (ps : PredicateSet)
    (df : List NormalizedListing)
    (h : ps.dep_range.1 > ps.dep_range.2 ∨ ps.rent_range.1 > ps.rent_range.2 ∨
      ps.prem_range.1 > ps.prem_range.2 ∨ ps.size_range.1 > ps.size_range.2) :
    draw_sidebar_filter ps df = [] := by
  rw [draw_sidebar_filter_eq, List.filter_eq_nil_iff]
  intro a _
  simp only [satisfies_all_predicates, Bool.and_eq_true, decide_eq_true_eq]
  rintro ⟨⟨⟨⟨⟨hmem, hdep⟩, hrent⟩, hprem⟩, hsize⟩, hfl⟩
  rcases h with h|h|h|h
  · exact absurd (hdep.1.trans hdep.2) (not_le.mpr h)
  · exact absurd (hrent.1.trans hrent.2) (not_le.mpr h)
  · exact absurd (hprem.1.trans hprem.2) (not_le.mpr h)
  · exact absurd (hsize.1.trans hsize.2) (not_le.mpr h)

/-- Witness for C6: deposit range `(100, 50)` empties the result. -/
theorem claim_C6_witness :
    draw_sidebar_filter degeneratePS [sampleNorm] = [] :=
  claim_C6_degenerate_range degeneratePS [sampleNorm] (Or.inl (by decide))

/-- C8 as stated is false on the code: pandas `str.contains` defaults
to `regex=True`, so the search strings `"."` (wildcard) and `"a*"`
(Kleene star, matching the empty string) each keep a record whose
title (`"ab"`) and stringified id (`"5"`) contain neither as a literal
substring, while the claimed substring semantics drops it. -/
theorem claim_C8_search_counterexample :
    page_explorer_search "." [sampleNorm] = some [sampleNorm] ∧
    substring_search "." [sampleNorm] = [] ∧
    page_explorer_search "a*" [sampleNorm] = some [sampleNorm] ∧
    substring_search "a*" [sampleNorm] = [] :=
  ⟨rfl, rfl, rfl, rfl⟩

/-- C8 amended: a non-empty search string that compiles as a regular
expression keeps exactly the records whose title is matched by it
case-insensitively or whose stringified id is matched by it
case-sensitively (`re.search`), with an empty input collection giving
an empty result; on search strings without regex metacharacters this
is exactly the claimed case-insensitive-substring-over-title OR
substring-over-stringified-id semantics. -/
theorem claim_C8_amended_search (search : String) (df : List NormalizedListing)
    (hs : search ≠ "") :
    (∀ r : Regex, parsePattern search.toList = some r →
      page_explorer_search search df =
        some (df.filter (fun a =>
          reSearchRegex true r a.title.toList ||
          reSearchRegex false r (toString a.id).toList)) ∧
      page_explorer_search search [] = some []) ∧
    ((∀ c ∈ search.toList, c ∉ regexMetachars) →
      page_explorer_search search df = some (substring_search search df)) := by
  constructor
  · intro r hr
    constructor
    · rw [page_explorer_search, if_pos hs, hr]
    · rw [page_explorer_search, if_pos hs, hr]
      rfl
  · intro hmeta
    rw [page_explorer_search, if_pos hs, parse_literal search.toList hmeta,
      substring_search]
    refine congrArg some (List.filter_congr ?_)
    intro a _
    rw [reSearch_litSeq, reSearch_litSeq]
    rfl

/-- Witness for C8 amended, at a metacharacter-free search string. -/
theorem claim_C8_witness :
    page_explorer_search "f" [sampleNorm] =
      some (substring_search "f" [sampleNorm]) :=
  (claim_C8_amended_search "f" [sampleNorm] (by decide)).2 (by decide)

/-- C2: for every input row, the normalizer sets
`deposit_won = deposit * 10000`, `monthly_rent_won = monthlyRent * 10000`,
`premium_won = premium * 10000`,
`maintenance_fee_won = maint_fee_raw * 10000`,
`area_price_won_per_m2 = area_price_raw * 10000`,
`size_py = size / 3.3058`,
`total_initial_cost = deposit_won + premium_won`, and
`monthly_total_cost = monthly_rent_won + maintenance_fee_won`. -/
theorem claim_C2_unit_conversions (parse : String → Option JsonDoc) (y : ℤ)
    (r : RawListing) :
    (normalize_row parse y r).deposit_won = r.deposit * 10000 ∧
    (normalize_row parse y r).monthly_rent_won = r.monthlyRent * 10000 ∧
    (normalize_row parse y r).premium_won = r.premium * 10000 ∧
    (normalize_row parse y r).maintenance_fee_won =
      (extract_from_json parse r).maint_fee_raw * 10000 ∧
    (normalize_row parse y r).area_price_won_per_m2 =
      (extract_from_json parse r).area_price_raw * 10000 ∧
    (normalize_row parse y r).size_py = r.size / 3.3058 ∧
    (normalize_row parse y r).total_initial_cost =
      (normalize_row parse y r).deposit_won + (normalize_row parse y r).premium_won ∧
    (normalize_row parse y r).monthly_total_cost =
      (normalize_row parse y r).monthly_rent_won +
        (normalize_row parse y r).maintenance_fee_won :=
  ⟨rfl, rfl, rfl, rfl, rfl, rfl, rfl, rfl⟩

/-- C3: the ratio fields never divide by zero: `rent_per_m2` is
`monthly_rent_won / size` when `size > 0` and `0` otherwise,
`rent_per_py` is `monthly_rent_won / size_py` when `size_py > 0` and
`0` otherwise, `premium_ratio` is `premium_won / deposit_won` when
`deposit_won > 0` and `0` otherwise; in particular a row with
`size = 0` has both rent ratios `0`, and a row with `deposit = 0` has
`premium_ratio = 0`. -/
theorem claim_C3_division_guards (parse : String → Option JsonDoc) (y : ℤ)
    (r : RawListing) :
    (normalize_row parse y r).rent_per_m2 =
      (if r.size > 0 then (normalize_row parse y r).monthly_rent_won / r.size
       else 0) ∧
    (normalize_row parse y r).rent_per_py =
      (if (normalize_row parse y r).size_py > 0 then
        (normalize_row parse y r).monthly_rent_won /
          (normalize_row parse y r).size_py
       else 0) ∧
    (normalize_row parse y r).premium_ratio =
      (if (normalize_row parse y r).deposit_won > 0 then
        (normalize_row parse y r).premium_won /
          (normalize_row parse y r).deposit_won
       else 0) ∧
    (r.size = 0 →
      (normalize_row parse y r).rent_per_m2 = 0 ∧
      (normalize_row parse y r).rent_per_py = 0) ∧
    (r.deposit = 0 → (normalize_row parse y r).premium_ratio = 0) := by
  refine ⟨rfl, rfl, rfl, fun h => ⟨?_, ?_⟩, fun h => ?_⟩ <;>
    simp [normalize_row, h]

/-- Witness for C3 at a concrete zero-size, zero-deposit row. -/
theorem claim_C3_witness :
    (normalize_row (fun _ => none) 2025 sampleZeroRow).rent_per_m2 = 0 ∧
    (normalize_row (fun _ => none) 2025 sampleZeroRow).rent_per_py = 0 ∧
    (normalize_row (fun _ => none) 2025 sampleZeroRow).premium_ratio = 0 := by
  have h := claim_C3_division_guards (fun _ => none) 2025 sampleZeroRow
  exact ⟨(h.2.2.2.1 rfl).1, (h.2.2.2.1 rfl).2, h.2.2.2.2 rfl⟩

/-- C5: `get_age` returns `0` on `"N/A"` and on the empty string;
otherwise it integer-parses the first four characters, returning
`current_year - parsed_year` on success and `0` on any parse
failure. -/
theorem claim_C5_age_extraction (y : ℤ) :
    (∀ s : String, s = "N/A" ∨ s = "" → get_age y s = 0) ∧
    (∀ (s : String) (yr : ℤ), s ≠ "N/A" → s ≠ "" →
      pyParseInt (pySlice s 4) = some yr → get_age y s = y - yr) ∧
    (∀ s : String, pyParseInt (pySlice s 4) = none → get_age y s = 0) := by
  refine ⟨?_, ?_, ?_⟩
  · intro s hs
    rw [get_age, if_pos hs]
  · intro s yr h1 h2 h3
    rw [get_age, if_neg (by tauto), h3]
  · intro s h
    by_cases hs : s = "N/A" ∨ s = ""
    · rw [get_age, if_pos hs]
    · rw [get_age, if_neg hs, h]

/-- Witness for C5: the `"N/A"` sentinel, a well-formed date, and a
non-numeric prefix. -/
theorem claim_C5_witness :
    get_age 2025 "N/A" = 0 ∧
    get_age 2025 "2019-03-01" = 2025 - 2019 ∧
    get_age 2025 "abcd2020" = 0 :=
  ⟨(claim_C5_age_extraction 2025).1 "N/A" (Or.inl rfl),
   (claim_C5_age_extraction 2025).2.1 "2019-03-01" 2019 (by decide) (by decide)
     (by decide),
   (claim_C5_age_extraction 2025).2.2 "abcd2020" (by decide)⟩

/-- C7: normalizing an empty collection and filtering an empty
collection each return the empty collection. -/
theorem claim_C7_empty_input (parse : String → Option JsonDoc) (y : ℤ)
    (ps : PredicateSet) :
    get_processed_data parse y [] = [] ∧ draw_sidebar_filter ps [] = [] := by
  refine ⟨rfl, ?_⟩
  rw [draw_sidebar_filter_eq]
  rfl

/-- C9: a completion year strictly greater than the reference year
yields a strictly negative building age — `current_year - parsed_year`
with no clamping at zero. -/
theorem claim_C9_negative_age (y : ℤ) (s : String) (yr : ℤ) (h1 : s ≠ "N/A")
    (h2 : s ≠ "") (h3 : pyParseInt (pySlice s 4) = some yr) (h4 : y < yr) :
    get_age y s = y - yr ∧ get_age y s < 0 := by
  have hval : get_age y s = y - yr := by
    rw [get_age, if_neg (by tauto), h3]
  exact ⟨hval, by rw [hval]; omega⟩

/-- Witness for C9: reference year 2020, completion year 2031. -/
theorem claim_C9_witness :
    get_age 2020 "2031-05" = 2020 - 2031 ∧ get_age 2020 "2031-05" < 0 :=
  claim_C9_negative_age 2020 "2031-05" 2031 (by decide) (by decide) (by decide)
    (by decide)

/-- C10: the normalizer produces exactly one output row per input row,
in order, and projecting every output back to its raw columns recovers
the input batch unchanged. -/
theorem claim_C10_frame (parse : String → Option JsonDoc) (y : ℤ)
    (rows : List RawListing) :
    (get_processed_data parse y rows).length = rows.length ∧
    (get_processed_data parse y rows).map (fun n => n.toRawListing) = rows := by
  rw [processed_eq_map]
  refine ⟨List.length_map rows _, ?_⟩
  induction rows with
  | nil => rfl
  | cons r rs ih =>
    simp only [List.map_cons]
    rw [ih, show (normalize_row parse y r).toRawListing = r from rfl]

end Nemostore
